import Mathlib

/-!
Verification of the rule-interpreter core of the teg-rw repository:
the configuration model with its validator (src/base/src/rule.rs) and
the phase-flow engine with its observer bus
(src/base/src/phase_flow_control.rs).

Rust HashMaps are embedded as association lists: lookup returns the
value of the first matching key, and the key list of a map is the list
of first components.  Rust String is Lean String, u32 counts become Nat
(only compared against zero), and Rust Result is Lean Except.  Observer
handles are embedded as event traces: delivering an event to an
observer appends the event to its trace, so the list of traces records
exactly which events each registered observer received and in which
order.
-/

namespace TegRw

/-- Association-list embedding of std::collections::HashMap with String
keys: lookup semantics only, no iteration-order guarantees are used
anywhere except for the key set. -/
def HMap (α : Type) : Type := List (String × α)

/-- HashMap::get - value of the first entry whose key matches. -/
def hmGet {α : Type} (m : HMap α) (k : String) : Option α :=
  match m with
  | [] => none
  | (k', v) :: rest => if k' = k then some v else hmGet rest k

/-- HashMap::keys - the keys of the map. -/
def hmKeys {α : Type} (m : HMap α) : List String :=
  m.map Prod.fst

/-! ## Configuration model and validator (src/base/src/rule.rs) -/

/-- DataError (src/base/src/error.rs).  Only the Validation variant is
reachable from the validator; the I/O and parse variants belong to the
external loader and never arise in this development. -/
inductive DataError : Type
  | Validation (msg : String)
deriving DecidableEq, Repr

/-- Constraint values come in as ron::Value; following the spec note the
embedding uses a small closed variant.  The validator never inspects the
value, only the field name. -/
inductive RonValue : Type
  | Number (n : Int)
  | Boolean (b : Bool)
  | Str (s : String)
deriving DecidableEq, Repr

/-- Constraint (rule.rs): a field condition on an action. -/
structure RuleConstraint : Type where
  field : String
  value : RonValue
deriving DecidableEq, Repr

/-- StateChange (rule.rs): effects declared by an action result. -/
inductive StateChange : Type
  | MoveFigures (from_ : String) (to_ : String) (count : Nat)
  | ChangeOwner (field_id : String) (new_owner : String)
deriving DecidableEq, Repr

/-- ActionResult (rule.rs): the state changes of an action. -/
structure ActionResult : Type where
  state_changes : List StateChange
deriving DecidableEq, Repr

/-- ActionDefinition (rule.rs). -/
structure ActionDefinition : Type where
  kind : String
  constraints : List RuleConstraint
  result : ActionResult
deriving DecidableEq, Repr

/-- PhaseDefinition (rule.rs). -/
structure PhaseDefinition : Type where
  id : String
  actions : List ActionDefinition
  next_phase : Option String
deriving DecidableEq, Repr

/-- RuleSet (rule.rs). -/
structure RuleSet : Type where
  id : String
  phases : List PhaseDefinition
deriving DecidableEq, Repr

/-- Embedding of Rust str::trim().is_empty(): trimming removes leading
and trailing whitespace, so the trimmed string is empty exactly when
every character of the string is whitespace.  Stated this way the check
stays kernel-computable. -/
def trimEmpty (s : String) : Bool :=
  s.data.all Char.isWhitespace

/-- The whitelist of recognized action kinds (rule.rs, local array
inside validate). -/
def allowedKinds : List String :=
  ["assign_fields", "assign_goals", "place_figure", "calculate_gain",
   "gain_figures", "encounter", "change_ownership",
   "redistribute_figures", "check_card_reward", "draw_field_card",
   "end_phase"]

/-- First loop of validate: insert each phase id into the seen set,
returning the first id already present. -/
def firstDuplicate (seen : List String) :
    List PhaseDefinition → Option String
  | [] => none
  | p :: rest =>
      if p.id ∈ seen then some p.id
      else firstDuplicate (p.id :: seen) rest

/-- Validation of one StateChange (rule.rs lines 133-158). -/
def validateChange (c : StateChange) : Except DataError Unit :=
  match c with
  | .MoveFigures f t cnt =>
      if f = t then
        .error (.Validation "MoveFigures: from and to must differ")
      else if cnt = 0 then
        .error (.Validation "MoveFigures: count must be > 0")
      else .ok ()
  | .ChangeOwner fid own =>
      if trimEmpty fid || trimEmpty own then
        .error (.Validation "ChangeOwner: field_id and new_owner must be set")
      else .ok ()

/-- Loop over an action's state changes, first error wins. -/
def validateChanges : List StateChange → Except DataError Unit
  | [] => .ok ()
  | c :: rest =>
      match validateChange c with
      | .error e => .error e
      | .ok _ => validateChanges rest

/-- Loop over an action's constraints: each field must be non-empty
after trimming (rule.rs lines 122-130). -/
def validateConstraints (akind : String) :
    List RuleConstraint → Except DataError Unit
  | [] => .ok ()
  | c :: rest =>
      if trimEmpty c.field then
        .error (.Validation ("Empty constraint field in action '" ++ akind ++ "'"))
      else validateConstraints akind rest

/-- Per-action checks, in source order: kind whitelist, then
constraints, then state changes (rule.rs lines 99-159). -/
def validateAction (pid : String) (a : ActionDefinition) :
    Except DataError Unit :=
  if a.kind ∉ allowedKinds then
    .error (.Validation
      ("Invalid action kind in phase '" ++ pid ++ "': '" ++ a.kind ++ "'"))
  else
    match validateConstraints a.kind a.constraints with
    | .error e => .error e
    | .ok _ => validateChanges a.result.state_changes

/-- Loop over a phase's actions in declared order. -/
def validateActions (pid : String) :
    List ActionDefinition → Except DataError Unit
  | [] => .ok ()
  | a :: rest =>
      match validateAction pid a with
      | .error e => .error e
      | .ok _ => validateActions pid rest

/-- The next_phase reference check of one phase against the full phase
id set collected by the first loop (rule.rs lines 90-97). -/
def checkNextPhase (ids : List String) (p : PhaseDefinition) :
    Except DataError Unit :=
  match p.next_phase with
  | some np =>
      if np ∈ ids then .ok ()
      else .error (.Validation
        ("Phase '" ++ p.id ++ "' references unknown next_phase: " ++ np))
  | none => .ok ()

/-- Second loop of validate: for each phase in declared order, first its
next_phase reference, then its actions (rule.rs lines 89-160) - the two
checks are interleaved per phase, not staged across all phases. -/
def validatePhases (ids : List String) :
    List PhaseDefinition → Except DataError Unit
  | [] => .ok ()
  | p :: rest =>
      match checkNextPhase ids p with
      | .error e => .error e
      | .ok _ =>
        match validateActions p.id p.actions with
        | .error e => .error e
        | .ok _ => validatePhases ids rest

/-- RuleSet::validate (rule.rs lines 74-163): non-empty ruleset id, then
phase-id uniqueness over all phases, then the per-phase pass. -/
def RuleSet.validate (rs : RuleSet) : Except DataError Unit :=
  if trimEmpty rs.id then
    .error (.Validation "RuleSet id must not be empty")
  else
    match firstDuplicate [] rs.phases with
    | some dup => .error (.Validation ("Duplicate phase id: " ++ dup))
    | none => validatePhases (rs.phases.map (·.id)) rs.phases

/-! ## Phase-flow engine (src/base/src/phase_flow_control.rs) -/

/-- PhaseFlowEvent: the tagged union delivered to observers. -/
inductive PhaseFlowEvent : Type
  | PhaseChanged (from_ : String) (to_ : String)
  | ActionExecuted (phase : String) (action : String) (result : String)
  | ConstraintChecked (phase : String) (action : String) (success : Bool)
deriving DecidableEq, Repr

/-- Constraint (phase_flow_control.rs): untagged number or boolean. -/
inductive FlowConstraint : Type
  | Number (n : Int)
  | Boolean (b : Bool)
deriving DecidableEq, Repr

/-- ActionConfig: result-label to next-phase map plus constraints. -/
structure ActionConfig : Type where
  result : HMap String
  constraints : HMap FlowConstraint

/-- PhaseActions: the actions declared by one phase, keyed by kind. -/
structure PhaseActions : Type where
  actions : HMap ActionConfig

/-- Modelled from the spec: the Goal type referenced by
PhaseFlowConfig.goals is declared nowhere under src/; per the spec it is
an id with a descriptive payload, and the engine never reads it. -/
structure Goal : Type where
  id : String
  description : String
deriving DecidableEq, Repr

/-- PhaseFlowConfig: the engine's configuration. -/
structure PhaseFlowConfig : Type where
  default_phase : String
  phases : HMap PhaseActions
  goals : List Goal

/-- ActionContext: opaque scratch data, empty in the source. -/
structure ActionContext : Type where

/-- PhaseFlowControl: the engine state.  Each registered observer is
embedded as the trace of events delivered to it so far, in delivery
order. -/
structure PhaseFlowControl : Type where
  config : PhaseFlowConfig
  current_phase : String
  action_context : ActionContext
  observers : List (List PhaseFlowEvent)

namespace PhaseFlowControl

/-- PhaseFlowControl::new - current phase starts at the configured
default phase, no existence check, no observers. -/
def new (config : PhaseFlowConfig) : PhaseFlowControl :=
  { config := config
    current_phase := config.default_phase
    action_context := {}
    observers := [] }

/-- add_observer - registers one more observer (with the trace of
events it has already received, empty for a fresh observer). -/
def add_observer (st : PhaseFlowControl) (tr : List PhaseFlowEvent) :
    PhaseFlowControl :=
  { st with observers := st.observers ++ [tr] }

/-- notify_observers - delivers one event to every registered observer,
in registration order. -/
def notify_observers (st : PhaseFlowControl) (e : PhaseFlowEvent) :
    PhaseFlowControl :=
  { st with observers := st.observers.map (fun tr => tr ++ [e]) }

/-- is_action_allowed (lines 92-98): the current phase declares an
action of this kind. -/
def is_action_allowed (st : PhaseFlowControl) (action : String) : Bool :=
  ((hmGet st.config.phases st.current_phase).bind
    (fun phase => hmGet phase.actions action)).isSome

/-- check_constraints (lines 100-119): resolves the action, failing
with "Action not found"; on success the constraint check is a
placeholder that always succeeds, and a ConstraintChecked event is
delivered before returning. -/
def check_constraints (st : PhaseFlowControl) (action : String) :
    Except String Bool × PhaseFlowControl :=
  match (hmGet st.config.phases st.current_phase).bind
      (fun phase => hmGet phase.actions action) with
  | none => (.error "Action not found", st)
  | some _ac =>
      let success := true
      let st' := notify_observers st
        (.ConstraintChecked st.current_phase action success)
      (.ok success, st')

/-- execute_action (lines 121-147): one chained lookup resolves phase,
action and result label, any miss giving the single error "Invalid
action or result"; on success it emits ActionExecuted with the
pre-transition phase, mutates current_phase, then emits PhaseChanged
with the already-mutated phase. -/
def execute_action (st : PhaseFlowControl) (action : String)
    (result : String) : Except String Unit × PhaseFlowControl :=
  match ((hmGet st.config.phases st.current_phase).bind
      (fun phase => hmGet phase.actions action)).bind
      (fun ac => hmGet ac.result result) with
  | none => (.error "Invalid action or result", st)
  | some next_phase =>
      let st1 := notify_observers st
        (.ActionExecuted st.current_phase action result)
      let old_phase := st1.current_phase
      let st2 := { st1 with current_phase := next_phase }
      let st3 := notify_observers st2
        (.PhaseChanged old_phase st2.current_phase)
      (.ok (), st3)

/-- available_actions (lines 149-155): the action kinds of the current
phase, empty when the current phase has no entry. -/
def available_actions (st : PhaseFlowControl) : List String :=
  match hmGet st.config.phases st.current_phase with
  | some phase => hmKeys phase.actions
  | none => []

/-- current_phase accessor (lines 157-159). -/
def currentPhase (st : PhaseFlowControl) : String :=
  st.current_phase

end PhaseFlowControl

/-! ## Concrete fixtures used by witnesses and counterexamples -/

/-- The end_phase action of the spec scenario: result map sends the
label "done" to the phase "place". -/
def endPhaseAC : ActionConfig :=
  { result := [("done", "place")], constraints := [] }

/-- The setup phase of the spec scenario declares only end_phase. -/
def setupActions : PhaseActions :=
  { actions := [("end_phase", endPhaseAC)] }

/-- The engine configuration of the spec scenario: default phase
"setup", a setup phase with one action and an empty place phase. -/
def tegConfig : PhaseFlowConfig :=
  { default_phase := "setup"
    phases := [("setup", setupActions), ("place", { actions := [] })]
    goals := [] }

/-- The spec-scenario engine with one registered observer that has
received no events yet. -/
def engine0 : PhaseFlowControl :=
  (PhaseFlowControl.new tegConfig).add_observer []

/-- An action config whose result label resolves to a phase id that has
no entry among the configured phases. -/
def danglingAC : ActionConfig :=
  { result := [("done", "nowhere")], constraints := [] }

/-- A phase declaring only the dangling end_phase action. -/
def danglingActions : PhaseActions :=
  { actions := [("end_phase", danglingAC)] }

/-- A configuration whose only transition leads out of the declared
phase set. -/
def danglingConfig : PhaseFlowConfig :=
  { default_phase := "setup"
    phases := [("setup", danglingActions)]
    goals := [] }

/-- Engine over the dangling configuration, no observers. -/
def engineDangling : PhaseFlowControl :=
  PhaseFlowControl.new danglingConfig

/-- An action whose kind is outside the whitelist. -/
def bogusAction : ActionDefinition :=
  { kind := "bogus", constraints := [], result := { state_changes := [] } }

/-- A phase carrying the invalid action and no next_phase. -/
def phaseA : PhaseDefinition :=
  { id := "a", actions := [bogusAction], next_phase := none }

/-- A later phase with a dangling next_phase reference. -/
def phaseB : PhaseDefinition :=
  { id := "b", actions := [], next_phase := some "zzz" }

/-- RuleSet where an earlier phase has an invalid action and a later
phase a dangling reference. -/
def mixedRS : RuleSet :=
  { id := "teg", phases := [phaseA, phaseB] }

/-- RuleSet with a duplicated phase id but an empty ruleset id. -/
def dupEmptyIdRS : RuleSet :=
  { id := ""
    phases := [ { id := "a", actions := [], next_phase := none },
                { id := "a", actions := [], next_phase := none } ] }

/-- RuleSet with non-empty id and a duplicated phase id. -/
def dupRS : RuleSet :=
  { id := "teg"
    phases := [ { id := "a", actions := [], next_phase := none },
                { id := "b", actions := [], next_phase := none },
                { id := "a", actions := [], next_phase := none } ] }

/-- A one-phase RuleSet embedding a single state change inside an
otherwise valid configuration. -/
def moveRS (c : StateChange) : RuleSet :=
  { id := "teg"
    phases := [ { id := "main"
                  actions := [ { kind := "end_phase", constraints := [],
                                 result := { state_changes := [c] } } ]
                  next_phase := none } ] }

/-! ## Helper lemmas -/

/-- Lookup succeeds exactly on the keys of the map. -/
theorem hmGet_isSome_iff_mem_keys {α : Type} (m : HMap α) (k : String) :
    (hmGet m k).isSome = true ↔ k ∈ hmKeys m := by
  induction m with
  | nil => simp [hmGet, hmKeys]
  | cons e rest ih =>
      obtain ⟨k', v⟩ := e
      by_cases hk : k' = k
      · subst hk
        simp [hmGet, hmKeys]
      · have hne : ¬ k = k' := fun h => hk h.symm
        simp only [hmGet, if_neg hk]
        rw [ih]
        show k ∈ hmKeys rest ↔ k ∈ hmKeys ((k', v) :: rest)
        simp [hmKeys, hne]

/-- When the uniqueness loop finds no duplicate, the scanned ids are
nodup and fresh with respect to the seen set. -/
theorem firstDuplicate_none_nodup (ps : List PhaseDefinition) (seen : List String)
    (h : firstDuplicate seen ps = none) :
    (ps.map (·.id)).Nodup ∧ ∀ x ∈ ps.map (·.id), x ∉ seen := by
  induction ps generalizing seen with
  | nil => simp
  | cons p rest ih =>
      simp only [firstDuplicate] at h
      by_cases hp : p.id ∈ seen
      · rw [if_pos hp] at h
        exact absurd h (by simp)
      · rw [if_neg hp] at h
        obtain ⟨hnd, hfr⟩ := ih (p.id :: seen) h
        simp only [List.map_cons]
        refine ⟨List.nodup_cons.mpr ⟨?_, hnd⟩, ?_⟩
        · intro hmem
          exact hfr _ hmem (List.mem_cons_self _ _)
        · intro x hx
          rcases List.mem_cons.mp hx with rfl | hx'
          · exact hp
          · intro hxs
            exact hfr x hx' (List.mem_cons_of_mem _ hxs)

/-- When the uniqueness loop reports an id, that id is either a repeat
of the seen set or genuinely duplicated among the scanned ids. -/
theorem firstDuplicate_some_mem (ps : List PhaseDefinition) (seen : List String)
    (d : String) (h : firstDuplicate seen ps = some d) :
    (d ∈ seen ∧ d ∈ ps.map (·.id)) ∨ List.Duplicate d (ps.map (·.id)) := by
  induction ps generalizing seen with
  | nil => simp [firstDuplicate] at h
  | cons p rest ih =>
      simp only [firstDuplicate] at h
      by_cases hp : p.id ∈ seen
      · rw [if_pos hp] at h
        obtain rfl : p.id = d := by injection h
        exact Or.inl ⟨hp, by simp⟩
      · rw [if_neg hp] at h
        rcases ih (p.id :: seen) h with ⟨hseen, hmem⟩ | hdup
        · rcases List.mem_cons.mp hseen with rfl | hseen'
          · right
            simp only [List.map_cons]
            exact List.Mem.duplicate_cons_self hmem
          · exact Or.inl ⟨hseen', by simp [hmem]⟩
        · right
          simp only [List.map_cons]
          exact List.Duplicate.duplicate_cons hdup _

/-- Reduction of validate on the one-change fixture: everything is
valid except possibly the embedded state change. -/
theorem validate_moveRS_reduce (c : StateChange) :
    (moveRS c).validate =
      match validateChange c with
      | .error e => .error e
      | .ok _ => .ok () := by
  have hteg : trimEmpty "teg" = false := rfl
  cases hc : validateChange c with
  | error e =>
      simp [moveRS, RuleSet.validate, firstDuplicate, validatePhases,
        checkNextPhase, validateActions, validateAction, allowedKinds,
        validateConstraints, validateChanges, hc, hteg]
  | ok u =>
      simp [moveRS, RuleSet.validate, firstDuplicate, validatePhases,
        checkNextPhase, validateActions, validateAction, allowedKinds,
        validateConstraints, validateChanges, hc, hteg]

/-! ## Claim theorems -/

/-- C1: when the current phase declares the requested action and the
action's result map contains the requested label, execute_action
returns success, sets current_phase to the resolved next phase id, and
every registered observer receives exactly one ActionExecuted event
carrying the pre-transition phase, the action and the result, followed
by exactly one PhaseChanged event from the old to the new phase - and
the PhaseChanged event carries the already-mutated current_phase, so it
is emitted strictly after the mutation. -/
theorem execute_action_success_spec
    (st : PhaseFlowControl) (a r next : String)
    (ph : PhaseActions) (ac : ActionConfig)
    (hph : hmGet st.config.phases st.current_phase = some ph)
    (hac : hmGet ph.actions a = some ac)
    (hr : hmGet ac.result r = some next) :
    (st.execute_action a r).1 = .ok () ∧
    (st.execute_action a r).2.current_phase = next ∧
    (st.execute_action a r).2.observers =
      st.observers.map (fun tr =>
        tr ++ [PhaseFlowEvent.ActionExecuted st.current_phase a r,
               PhaseFlowEvent.PhaseChanged st.current_phase
                 (st.execute_action a r).2.current_phase]) := by
  unfold PhaseFlowControl.execute_action
  rw [hph]
  simp [hac, hr, PhaseFlowControl.notify_observers]

/-- C1 witness: the spec scenario engine executes end_phase/done,
moves from setup to place, and its single observer receives exactly the
two events in order. -/
theorem execute_action_success_spec_witness :
    (engine0.execute_action "end_phase" "done").1 = .ok () ∧
    (engine0.execute_action "end_phase" "done").2.current_phase = "place" ∧
    (engine0.execute_action "end_phase" "done").2.observers =
      [[PhaseFlowEvent.ActionExecuted "setup" "end_phase" "done",
        PhaseFlowEvent.PhaseChanged "setup" "place"]] := by
  have h := execute_action_success_spec engine0 "end_phase" "done" "place"
    setupActions endPhaseAC rfl rfl rfl
  refine ⟨h.1, h.2.1, ?_⟩
  rw [h.2.2, h.2.1]
  rfl

/-- C3 counterexample: executing an action kind the current phase does
not declare returns the combined error "Invalid action or result" -
not a distinct ActionNotFound error, which refutes the claim as
stated. -/
theorem execute_action_missing_action_cex :
    engine0.execute_action "attack" "done" =
      (.error "Invalid action or result", engine0) ∧
    ("Invalid action or result" : String) ≠ "Action not found" := by
  exact ⟨rfl, by decide⟩

/-- C3 amended: whenever the action kind fails to resolve in the
current phase, execute_action returns the same "Invalid action or
result" error that an unknown result label produces; the distinct
"Action not found" error never occurs here. -/
theorem execute_action_absent_kind_same_error
    (st : PhaseFlowControl) (a r : String)
    (h : (hmGet st.config.phases st.current_phase).bind
        (fun phase => hmGet phase.actions a) = none) :
    st.execute_action a r = (.error "Invalid action or result", st) ∧
    ("Invalid action or result" : String) ≠ "Action not found" := by
  constructor
  · unfold PhaseFlowControl.execute_action
    rw [h]
    rfl
  · decide

/-- C3 amended witness at a concrete engine and absent action kind. -/
theorem execute_action_absent_kind_same_error_witness :
    engine0.execute_action "foo" "done" =
      (.error "Invalid action or result", engine0) ∧
    ("Invalid action or result" : String) ≠ "Action not found" :=
  execute_action_absent_kind_same_error engine0 "foo" "done" rfl

/-- C4: whenever execute_action returns an error, the state is exactly
the pre-call state: in particular current_phase is unchanged and every
observer trace is unchanged, so no event was delivered. -/
theorem execute_action_error_state_unchanged
    (st : PhaseFlowControl) (a r e : String)
    (h : (st.execute_action a r).1 = .error e) :
    (st.execute_action a r).2 = st ∧
    (st.execute_action a r).2.current_phase = st.current_phase ∧
    (st.execute_action a r).2.observers = st.observers := by
  cases hm : ((hmGet st.config.phases st.current_phase).bind
      (fun phase => hmGet phase.actions a)).bind
      (fun ac => hmGet ac.result r) with
  | none =>
      have h2 : st.execute_action a r = (.error "Invalid action or result", st) := by
        unfold PhaseFlowControl.execute_action
        rw [hm]
      rw [h2]
      exact ⟨rfl, rfl, rfl⟩
  | some next =>
      exfalso
      have h2 : (st.execute_action a r).1 = .ok () := by
        unfold PhaseFlowControl.execute_action
        rw [hm]
      rw [h2] at h
      exact Except.noConfusion h

/-- C4 witness: the spec scenario with an unknown result label leaves
the engine exactly as it was. -/
theorem execute_action_error_state_unchanged_witness :
    (engine0.execute_action "end_phase" "fail").2 = engine0 ∧
    (engine0.execute_action "end_phase" "fail").2.current_phase =
      engine0.current_phase ∧
    (engine0.execute_action "end_phase" "fail").2.observers =
      engine0.observers :=
  execute_action_error_state_unchanged engine0 "end_phase" "fail"
    "Invalid action or result" rfl

/-- C5 counterexample: when the current phase does not declare the
action, check_constraints returns the "Action not found" error with
the state unchanged, so the single registered observer's trace stays
empty: no ConstraintChecked event is emitted on this call, refuting
"in every call it emits a ConstraintChecked event". -/
theorem check_constraints_missing_no_event_cex :
    engine0.check_constraints "attack" = (.error "Action not found", engine0) ∧
    engine0.observers = [([] : List PhaseFlowEvent)] :=
  ⟨rfl, rfl⟩

/-- C5 amended: check_constraints fails with "Action not found" and
emits nothing when the current phase does not declare the action; when
it does, the call returns true (the placeholder always succeeds) after
delivering one ConstraintChecked event to every observer. -/
theorem check_constraints_spec (st : PhaseFlowControl) (a : String) :
    ((hmGet st.config.phases st.current_phase).bind
        (fun phase => hmGet phase.actions a) = none →
      st.check_constraints a = (.error "Action not found", st)) ∧
    (∀ ac, (hmGet st.config.phases st.current_phase).bind
        (fun phase => hmGet phase.actions a) = some ac →
      st.check_constraints a =
        (.ok true,
         { st with observers := st.observers.map (fun tr =>
             tr ++ [PhaseFlowEvent.ConstraintChecked st.current_phase a true]) })) := by
  constructor
  · intro h
    unfold PhaseFlowControl.check_constraints
    rw [h]
  · intro ac h
    unfold PhaseFlowControl.check_constraints
    rw [h]
    rfl

/-- C5 amended witness: on the spec scenario engine the declared
end_phase action checks as true and the observer receives exactly one
ConstraintChecked event. -/
theorem check_constraints_spec_witness :
    engine0.check_constraints "end_phase" =
      (.ok true,
       { engine0 with observers := engine0.observers.map (fun tr =>
           tr ++ [PhaseFlowEvent.ConstraintChecked engine0.current_phase
                    "end_phase" true]) }) :=
  (check_constraints_spec engine0 "end_phase").2 endPhaseAC rfl

/-- C7 counterexample: a RuleSet with two phases sharing id "a" but an
empty ruleset id fails with the EmptyId error, not with
DuplicatePhaseId, refuting the claim over all RuleSet values. -/
theorem validate_duplicate_empty_id_cex :
    dupEmptyIdRS.validate =
      .error (.Validation "RuleSet id must not be empty") ∧
    DataError.Validation "RuleSet id must not be empty" ≠
      DataError.Validation "Duplicate phase id: a" :=
  ⟨rfl, by decide⟩

/-- C7 amended: for every RuleSet whose id is non-empty after trimming
and whose phase ids are not all distinct, validate returns the
DuplicatePhaseId error naming an id that genuinely occurs more than
once among the phase ids. -/
theorem validate_duplicate_phase_id (rs : RuleSet)
    (hid : trimEmpty rs.id = false)
    (hdup : ¬ (rs.phases.map (·.id)).Nodup) :
    ∃ d, rs.validate = .error (.Validation ("Duplicate phase id: " ++ d)) ∧
      List.Duplicate d (rs.phases.map (·.id)) := by
  have hval : rs.validate =
      match firstDuplicate [] rs.phases with
      | some dup => .error (.Validation ("Duplicate phase id: " ++ dup))
      | none => validatePhases (rs.phases.map (·.id)) rs.phases := by
    simp [RuleSet.validate, hid]
  cases hfd : firstDuplicate [] rs.phases with
  | none => exact absurd (firstDuplicate_none_nodup rs.phases [] hfd).1 hdup
  | some d =>
      refine ⟨d, ?_, ?_⟩
      · rw [hval, hfd]
      · rcases firstDuplicate_some_mem rs.phases [] d hfd with ⟨hseen, _⟩ | hdup'
        · exact absurd hseen (List.not_mem_nil d)
        · exact hdup'

/-- C7 amended witness on a three-phase ruleset duplicating id "a". -/
theorem validate_duplicate_phase_id_witness :
    ∃ d, dupRS.validate =
        .error (.Validation ("Duplicate phase id: " ++ d)) ∧
      List.Duplicate d (dupRS.phases.map (·.id)) :=
  validate_duplicate_phase_id dupRS rfl (by decide)

/-- C8: inside an otherwise valid RuleSet, a MoveFigures state change
passes validation exactly when its endpoints differ and its count is
at least one; it fails when from equals to and fails when count is
zero. -/
theorem validate_move_figures_invariant (f t : String) (n : Nat) :
    (moveRS (.MoveFigures f t n)).validate = .ok () ↔ (f ≠ t ∧ 1 ≤ n) := by
  rw [validate_moveRS_reduce]
  by_cases hf : f = t
  · simp [validateChange, hf]
  · by_cases hn : n = 0
    · simp [validateChange, hf, hn]
    · simp [validateChange, hf, hn, Nat.one_le_iff_ne_zero]

/-- C8 witness: the three spec instances - from=to fails, count=0
fails, and from=A,to=B,count=1 passes. -/
theorem validate_move_figures_invariant_witness :
    (moveRS (.MoveFigures "A" "B" 1)).validate = .ok () ∧
    (moveRS (.MoveFigures "A" "A" 5)).validate ≠ .ok () ∧
    (moveRS (.MoveFigures "A" "B" 0)).validate ≠ .ok () := by
  refine ⟨(validate_move_figures_invariant "A" "B" 1).mpr ⟨by decide, le_refl 1⟩, ?_, ?_⟩
  · intro h
    exact ((validate_move_figures_invariant "A" "A" 5).mp h).1 rfl
  · intro h
    exact absurd ((validate_move_figures_invariant "A" "B" 0).mp h).2 (by decide)

/-- C2 counterexample: in a RuleSet whose first phase holds an action
with an invalid kind and whose second phase holds a dangling
next_phase, validate returns the InvalidActionKind error, not the
UnknownPhaseReference error the claim requires - the next_phase and
action checks are interleaved per phase, not staged. -/
theorem validate_order_interleaved_cex :
    mixedRS.validate =
      .error (.Validation "Invalid action kind in phase 'a': 'bogus'") ∧
    DataError.Validation "Invalid action kind in phase 'a': 'bogus'" ≠
      DataError.Validation "Phase 'b' references unknown next_phase: zzz" :=
  ⟨rfl, by decide⟩

/-- C2 amended: validate checks the ruleset id, then all phase-id
uniqueness, then a single pass over phases in declared order that
checks each phase's next_phase reference and then that phase's
actions; hence when an earlier phase carries an invalid action kind
and only a later phase carries a dangling next_phase reference, the
invalid-action-kind error is the one returned. -/
theorem validate_action_error_before_later_ref
    (rsid t : String) (p q : PhaseDefinition) (a : ActionDefinition)
    (hid : trimEmpty rsid = false)
    (hne : p.id ≠ q.id)
    (hpn : p.next_phase = none)
    (hpa : p.actions = [a])
    (hak : a.kind ∉ allowedKinds)
    (_hqn : q.next_phase = some t)
    (_ht : t ≠ p.id ∧ t ≠ q.id) :
    RuleSet.validate { id := rsid, phases := [p, q] } =
      .error (.Validation
        ("Invalid action kind in phase '" ++ p.id ++ "': '" ++ a.kind ++ "'")) := by
  simp [RuleSet.validate, hid, firstDuplicate, Ne.symm hne, validatePhases,
    checkNextPhase, hpn, validateActions, hpa, validateAction, hak]

/-- C2 amended witness at the concrete two-phase ruleset. -/
theorem validate_action_error_before_later_ref_witness :
    RuleSet.validate { id := "teg", phases := [phaseA, phaseB] } =
      .error (.Validation
        ("Invalid action kind in phase '" ++ phaseA.id ++ "': '" ++
          bogusAction.kind ++ "'")) :=
  validate_action_error_before_later_ref "teg" "zzz" phaseA phaseB bogusAction
    rfl (by decide) rfl rfl (by decide) rfl ⟨by decide, by decide⟩

/-- C9: execute_action never checks that the resolved next phase id
exists: when the result label maps to an id with no phase entry, the
call still succeeds and sets current_phase to that id, after which no
action is allowed and available_actions is empty. -/
theorem execute_action_unchecked_next
    (st : PhaseFlowControl) (a r next : String)
    (ph : PhaseActions) (ac : ActionConfig)
    (hph : hmGet st.config.phases st.current_phase = some ph)
    (hac : hmGet ph.actions a = some ac)
    (hr : hmGet ac.result r = some next)
    (hmiss : hmGet st.config.phases next = none) :
    (st.execute_action a r).1 = .ok () ∧
    (st.execute_action a r).2.current_phase = next ∧
    (∀ k, (st.execute_action a r).2.is_action_allowed k = false) ∧
    (st.execute_action a r).2.available_actions = [] := by
  unfold PhaseFlowControl.execute_action
  rw [hph]
  simp [hac, hr, PhaseFlowControl.notify_observers,
    PhaseFlowControl.is_action_allowed, PhaseFlowControl.available_actions, hmiss]

/-- C9 witness: a configuration whose only transition leads to the
undeclared phase "nowhere". -/
theorem execute_action_unchecked_next_witness :
    (engineDangling.execute_action "end_phase" "done").1 = .ok () ∧
    (engineDangling.execute_action "end_phase" "done").2.current_phase =
      "nowhere" ∧
    (engineDangling.execute_action "end_phase" "done").2.is_action_allowed
      "end_phase" = false ∧
    (engineDangling.execute_action "end_phase" "done").2.available_actions
      = [] := by
  have h := execute_action_unchecked_next engineDangling "end_phase" "done"
    "nowhere" danglingActions danglingAC rfl rfl rfl rfl
  exact ⟨h.1, h.2.1, h.2.2.1 "end_phase", h.2.2.2⟩

/-- C10: an action kind is allowed exactly when it occurs in the
sequence returned by available_actions, for every engine state. -/
theorem is_action_allowed_iff_available
    (st : PhaseFlowControl) (k : String) :
    st.is_action_allowed k = true ↔ k ∈ st.available_actions := by
  unfold PhaseFlowControl.is_action_allowed PhaseFlowControl.available_actions
  cases hph : hmGet st.config.phases st.current_phase with
  | none => simp
  | some ph => simpa using hmGet_isSome_iff_mem_keys ph.actions k

/-- C10 witness: on the spec scenario engine the allowed end_phase
action indeed occurs in available_actions. -/
theorem is_action_allowed_iff_available_witness :
    "end_phase" ∈ engine0.available_actions :=
  (is_action_allowed_iff_available engine0 "end_phase").mp rfl

end TegRw
